import Mathlib

/-!
# Plane: crash-multiplier server (`src/web/dist/server.js`)

A shallow embedding of the server's numeric core and of its handlers.

Modelling conventions.

* A JavaScript number is a `JSNum`: NaN, minus infinity, a finite value, or plus infinity.
  Finite values are exact rationals: the rounding error of IEEE doubles and the sign of zero
  are not represented.
* `Number(x.toFixed(d))` is `toFixedNum d x`: round half away from zero at `d` decimals, the
  identity from `10^21` on (where `toFixed` falls back to `ToString`).
* Library functions whose body is not part of the repository (the HMAC digest, number and string
  conversions, `Math.pow`, `parseFloat`) are fields of `Builtins`; `Math.random()` is an explicit
  argument holding the value drawn.
* `main.json` is a `Store`: absent, unparseable, or the JSON value its text parses to. Writes
  always succeed.
-/

namespace Plane

/-! ## Numbers -/

/-- A JavaScript number with exact finite part. -/
inductive JSNum where
  | nan
  | negInf
  | fin (q : ℚ)
  | posInf
  deriving DecidableEq

namespace JSNum

/-- The test `Number.isNaN(a)` (and `isNaN(a)` on a number). -/
def isNaN : JSNum → Bool
  | nan => true
  | _ => false

/-- Unary minus. -/
def neg : JSNum → JSNum
  | nan => nan
  | negInf => posInf
  | fin q => fin (-q)
  | posInf => negInf

/-- The sum `a + b`. -/
def add : JSNum → JSNum → JSNum
  | nan, _ => nan
  | _, nan => nan
  | posInf, negInf => nan
  | negInf, posInf => nan
  | posInf, _ => posInf
  | _, posInf => posInf
  | negInf, _ => negInf
  | _, negInf => negInf
  | fin a, fin b => fin (a + b)

/-- The difference `a - b`. -/
def sub (a b : JSNum) : JSNum := add a (neg b)

/-- The quotient `a / b`; a zero divisor counts as `+0`. -/
def div : JSNum → JSNum → JSNum
  | nan, _ => nan
  | _, nan => nan
  | fin a, fin b =>
      if b = 0 then (if 0 < a then posInf else if a < 0 then negInf else nan) else fin (a / b)
  | fin _, _ => fin 0
  | posInf, fin b => if b < 0 then negInf else posInf
  | negInf, fin b => if b < 0 then posInf else negInf
  | _, _ => nan

/-- The comparison `a >= b`, false as soon as one side is NaN. -/
def ge : JSNum → JSNum → Bool
  | nan, _ => false
  | _, nan => false
  | posInf, _ => true
  | _, negInf => true
  | negInf, _ => false
  | fin _, posInf => false
  | fin a, fin b => decide (b ≤ a)

/-- The comparison `a < b`, false as soon as one side is NaN. -/
def lt : JSNum → JSNum → Bool
  | nan, _ => false
  | _, nan => false
  | _, negInf => false
  | negInf, _ => true
  | posInf, _ => false
  | fin _, posInf => true
  | fin a, fin b => decide (a < b)

/-- The function `Math.max(a, b)`. -/
def max : JSNum → JSNum → JSNum
  | nan, _ => nan
  | _, nan => nan
  | posInf, _ => posInf
  | _, posInf => posInf
  | negInf, b => b
  | a, negInf => a
  | fin a, fin b => fin (Max.max a b)

/-- The function `Math.min(a, b)`. -/
def min : JSNum → JSNum → JSNum
  | nan, _ => nan
  | _, nan => nan
  | negInf, _ => negInf
  | _, negInf => negInf
  | posInf, b => b
  | a, posInf => a
  | fin a, fin b => fin (Min.min a b)

/-- Truthiness of a number: false for zero and NaN. -/
def truthy : JSNum → Bool
  | nan => false
  | fin q => decide (q ≠ 0)
  | _ => true

end JSNum

/-- Rounding of a non-negative `x` by `toFixed(d)`: the integer `n` with `n / 10^d` nearest to
`x`, the larger one on a tie; from `10^21` on `toFixed` prints the number itself. -/
def roundNonneg (d : ℕ) (x : ℚ) : ℚ :=
  if 10 ^ 21 ≤ x then x else ((⌊x * 10 ^ d + 1 / 2⌋ : ℤ) : ℚ) / 10 ^ d

/-- The value `Number(x.toFixed(d))` of a finite `x`: a negative `x` is rounded through its
absolute value and keeps its sign. -/
def toFixedNum (d : ℕ) (x : ℚ) : ℚ :=
  if x < 0 then -roundNonneg d (-x) else roundNonneg d x

/-- The value `Number(a.toFixed(d))` of any number: NaN and the infinities print as
themselves. -/
def JSNum.toFixed (d : ℕ) : JSNum → JSNum
  | JSNum.fin q => JSNum.fin (toFixedNum d q)
  | a => a

/-! ## Library functions taken as parameters -/

/-- JSON values, as produced by `JSON.parse`. -/
inductive Json where
  | null
  | bool (b : Bool)
  | num (q : ℚ)
  | str (s : String)
  | arr (items : List Json)
  | obj (fields : List (String × Json))

/-- The library functions the server calls. -/
structure Builtins where
  /-- Hex digest of HMAC-SHA256: `createHmac('sha256', key).update(msg).digest('hex')`. -/
  hmacSha256Hex : String → String → String
  /-- Conversion of a number inside a template literal. -/
  numberToString : JSNum → String
  /-- The conversion `Number(s)` of a string. -/
  stringToNumber : String → JSNum
  /-- The conversion `Number(v)` of an array or an object. -/
  objectToNumber : Json → JSNum
  /-- The function `parseFloat`. -/
  parseFloat : String → JSNum
  /-- The function `Math.pow` on finite arguments. -/
  pow : ℚ → ℚ → ℚ

/-! ## Provably-fair crash point (`hmacHex`, `toUniform`, `crashR`) -/

/-- Value of one hexadecimal digit, `none` for any other character. -/
def hexDigitVal (c : Char) : Option ℕ :=
  if 48 ≤ c.toNat ∧ c.toNat ≤ 57 then some (c.toNat - 48)
  else if 97 ≤ c.toNat ∧ c.toNat ≤ 102 then some (c.toNat - 87)
  else if 65 ≤ c.toNat ∧ c.toNat ≤ 70 then some (c.toNat - 55)
  else none

/-- Digit values of the longest leading run of hexadecimal digits. -/
def hexRun : List Char → List ℕ
  | [] => []
  | c :: cs =>
    match hexDigitVal c with
    | some d => d :: hexRun cs
    | none => []

/-- Base-16 value of a digit sequence, most significant digit first. -/
def hexValue (ds : List ℕ) : ℕ := ds.foldl (fun acc d => 16 * acc + d) 0

/-- The call `parseInt(s, 16)` on a string without leading white space, sign or `0x`
marker (none of which occurs in a hex digest): the value of the leading run of hex digits,
NaN when that run is empty. -/
def parseInt16 (s : List Char) : JSNum :=
  match hexRun s with
  | [] => JSNum.nan
  | d :: ds => JSNum.fin (hexValue (d :: ds))

/-- Source `hmacHex(serverSeed, clientSeed, n)`: the digest, keyed by the server seed, of the
client seed followed by the nonce. -/
def hmacHex (B : Builtins) (serverSeed clientSeed : String) (n : JSNum) : String :=
  B.hmacSha256Hex serverSeed (clientSeed ++ B.numberToString n)

/-- Source `toUniform(hex)`. -/
def toUniform (hex : String) : JSNum :=
  let head := hex.data.take 13
  let num := parseInt16 head
  let denom : ℚ := 16 ^ head.length
  JSNum.div num (JSNum.fin denom)

/-- The constant `1e-12`. -/
def eps : ℚ := 1 / 10 ^ 12

/-- Source `crashR(serverSeed, clientSeed, n, houseEdge)`. -/
def crashR (B : Builtins) (serverSeed clientSeed : String) (n houseEdge : JSNum) : JSNum :=
  let u := toUniform (hmacHex B serverSeed clientSeed n)
  let x := JSNum.max (JSNum.min u (JSNum.fin (1 - eps))) (JSNum.fin eps)
  JSNum.max (JSNum.fin 1) (JSNum.div houseEdge (JSNum.sub (JSNum.fin 1) x))

/-- The clamp of step 3 of the specification: `u` restricted to `[1e-12, 1 - 1e-12]`. -/
def clampUnit (u : ℚ) : ℚ := max (min u (1 - eps)) eps

/-! ## Summary statistics (`/api/summary`) -/

/-- The body returned by `/api/summary`. The keys of `pge` are the thresholds themselves (the
source uses their two-decimal rendering `t.toFixed(2)`, which is distinct for the five
thresholds). -/
structure Summary where
  n : ℕ
  mean : ℚ
  median : ℚ
  pge : List (ℚ × ℚ)

/-- The constant `thresholds`. -/
def thresholds : List ℚ := [3 / 2, 2, 3, 5, 10]

/-- The variable `median` of `/api/summary` before it is rounded: the sample is sorted
ascending (`[...sample].sort((a, b) => a - b)`) and the middle element, or the mean of the two
central elements, is taken. An index outside the array reads as `0`. -/
def medianRaw (sample : List ℚ) : ℚ :=
  let n := sample.length
  if n ≠ 0 then
    let s := sample.insertionSort (fun a b => a ≤ b)
    if n % 2 ≠ 0 then s.getD ((n - 1) / 2) 0
    else (s.getD (n / 2 - 1) 0 + s.getD (n / 2) 0) / 2
  else 0

/-- The variable `mean` of `/api/summary` before it is rounded. -/
def meanRaw (sample : List ℚ) : ℚ :=
  let n := sample.length
  if n ≠ 0 then sample.foldl (fun a b => a + b) 0 / n else 0

/-- The entry `pge[t]` of `/api/summary`. -/
def pgeEntry (sample : List ℚ) (t : ℚ) : ℚ :=
  let n := sample.length
  let c := (sample.filter (fun v => decide (t ≤ v))).length
  if n ≠ 0 then toFixedNum 6 ((c : ℚ) / (n : ℚ)) else 0

/-- The handler of `/api/summary`, as a function of the sample read from the store. -/
def apiSummary (sample : List ℚ) : Summary :=
  { n := sample.length
    mean := toFixedNum 6 (meanRaw sample)
    median := toFixedNum 6 (medianRaw sample)
    pge := thresholds.map (fun t => (t, pgeEntry sample t)) }

/-- Reading `pge[t]` off a summary. -/
def Summary.pgeAt (s : Summary) (t : ℚ) : Option ℚ :=
  (s.pge.find? (fun e => decide (e.1 = t))).map Prod.snd

/-- Smallest element of a sample (`0` for the empty sample). -/
def sampleMin : List ℚ → ℚ
  | [] => 0
  | a :: l => l.foldl min a

/-- Largest element of a sample (`0` for the empty sample). -/
def sampleMax : List ℚ → ℚ
  | [] => 0
  | a :: l => l.foldl max a

/-! ## The consolidated dataset (`main.json`) -/

/-- State of the file `main.json`: absent, present with a text that `JSON.parse` rejects, or
present with a text that parses to the given value. -/
inductive Store where
  | missing
  | corrupt
  | json (j : Json)

/-- Property read `r[key]` on a parsed JSON value: it throws a `TypeError` on `null`, yields
the field of an object (`none` is `undefined`), and `undefined` on every other value. The
fields of a parsed object have distinct keys. -/
def getProp (r : Json) (key : String) : Except Unit (Option Json) :=
  match r with
  | Json.null => Except.error ()
  | Json.obj fields => Except.ok (fields.lookup key)
  | _ => Except.ok none

/-- The conversion `Number(v)`; `none` is `undefined`. -/
def toNumber (B : Builtins) : Option Json → JSNum
  | none => JSNum.nan
  | some Json.null => JSNum.fin 0
  | some (Json.bool b) => JSNum.fin (if b then 1 else 0)
  | some (Json.num q) => JSNum.fin q
  | some (Json.str s) => B.stringToNumber s
  | some v => B.objectToNumber v

/-- The expression `arr.map((r) => Number(r.multiplier))`, which throws as soon as one read
`r.multiplier` throws. -/
def mapMultiplier (B : Builtins) : List Json → Except Unit (List JSNum)
  | [] => Except.ok []
  | r :: rs =>
    match getProp r "multiplier" with
    | Except.error e => Except.error e
    | Except.ok m =>
      match mapMultiplier B rs with
      | Except.error e => Except.error e
      | Except.ok vs => Except.ok (toNumber B m :: vs)

/-- The filter `(v) => !isNaN(v) && v >= 1`. -/
def validValue (v : JSNum) : Bool := !v.isNaN && v.ge (JSNum.fin 1)

/-- Source `readMainValues()`: any exception raised inside the `try` block is swallowed and
the empty array is returned. -/
def readMainValues (B : Builtins) (st : Store) : List JSNum :=
  match st with
  | Store.json (Json.arr items) =>
    match mapMultiplier B items with
    | Except.ok vs => vs.filter validValue
    | Except.error _ => []
  | _ => []

/-- Source `loadValues()` of `/api/stream`, the same statements as `readMainValues`. -/
def loadValues (B : Builtins) (st : Store) : List JSNum :=
  match st with
  | Store.json (Json.arr items) =>
    match mapMultiplier B items with
    | Except.ok vs => vs.filter validValue
    | Except.error _ => []
  | _ => []

/-- What `JSON.stringify` writes for a number: `null` for NaN and the infinities. -/
def stringifyNum : JSNum → Json
  | JSNum.fin q => Json.num q
  | _ => Json.null

/-- The record `{ session_id, multiplier }` as it is found in the file after
`JSON.stringify`. -/
def record (sessionId : Json) (multiplier : JSNum) : Json :=
  Json.obj [("session_id", sessionId), ("multiplier", stringifyNum multiplier)]

/-- Source `writeAppendCrash(value, sessionId)`: the array read from the file (empty when the
file is absent, unparseable or not an array) with one record pushed, written back. -/
def writeAppendCrash (value : JSNum) (sessionId : String) (st : Store) : Store :=
  let mainArr : List Json :=
    match st with
    | Store.json (Json.arr items) => items
    | _ => []
  Store.json (Json.arr (mainArr ++ [record (Json.str sessionId) value]))

/-- A stored record obeys the record invariant when its `multiplier` is a number `≥ 1`. -/
def recordValid : Json → Prop
  | Json.obj fields =>
    match fields.lookup "multiplier" with
    | some (Json.num q) => 1 ≤ q
    | _ => False
  | _ => False

/-! ## Manual crash entry (`/api/add-crash`) -/

/-- White space and line terminators removed by `String.prototype.trim`. -/
def isJsSpace (c : Char) : Bool :=
  let n := c.toNat
  (9 ≤ n && n ≤ 13) || n = 32 || n = 160 || n = 5760 || (8192 ≤ n && n ≤ 8202) ||
    n = 8232 || n = 8233 || n = 8239 || n = 8287 || n = 12288 || n = 65279

/-- The call `s.replace(/x$/i, '')`: a final `x` or `X` is removed. -/
def dropTrailingX (s : String) : String :=
  match s.data.reverse with
  | [] => s
  | c :: cs => if c = 'x' ∨ c = 'X' then String.mk cs.reverse else s

/-- The call `s.trim()`. -/
def trim (s : String) : String :=
  String.mk ((s.data.dropWhile isJsSpace).reverse.dropWhile isJsSpace).reverse

/-- Outcome of a POST handler. -/
inductive Response where
  | badRequest (error : String)
  | added (count : ℕ)
  deriving DecidableEq

/-- The handler of `/api/add-crash`; `value` is the field of the request body (`none` when it
is absent). -/
def apiAddCrash (B : Builtins) (value : Option Json) (st : Store) : Store × Response :=
  let v : JSNum :=
    match value with
    | some (Json.str s) => B.parseFloat (trim (dropTrailingX s))
    | some (Json.num q) => JSNum.fin q
    | _ => JSNum.fin 0
  if !v.truthy || v.isNaN || v.lt (JSNum.fin 1) then
    (st, Response.badRequest "Valor inválido, debe ser >= 1")
  else
    (writeAppendCrash (v.toFixed 2) "real" st, Response.added 1)

/-! ## Empirical sampler (`sampleCrash`) -/

/-- The body of `sampleCrash()` once the sample is read; `u` is the value returned by the one
call of `Math.random()`. An index outside the sample reads as NaN (no draw in `[0, 1)`
produces one). -/
def drawCrash (B : Builtins) (sample : List JSNum) (u : ℚ) : JSNum :=
  if sample.length = 0 then
    let xm : ℚ := 1
    let alpha : ℚ := 2
    JSNum.fin (xm * B.pow (1 - u) (-1 / alpha))
  else
    let idx := (⌊u * (sample.length : ℚ)⌋ : ℤ).toNat
    JSNum.max (JSNum.fin 1) ((sample.getD idx JSNum.nan).toFixed 2)

/-- Source `sampleCrash()`. -/
def sampleCrash (B : Builtins) (st : Store) (u : ℚ) : JSNum :=
  drawCrash B (readMainValues B st) u

/-! ## Streaming loops (`/api/sim-stream`, `/api/pf-stream`) -/

/-- An event written on the transport. -/
inductive Event where
  | simTick (id : String) (x R : JSNum)
  | simCrash (id : String) (R : JSNum)
  | pfTick (x R nonce : JSNum)
  | pfCrash (R nonce : JSNum)
  | pfError (error : String)
  deriving DecidableEq

/-- An event of type `tick` or `crash`. -/
def Event.isTickOrCrash : Event → Bool
  | Event.pfError _ => false
  | _ => true

/-- The expression `String(q || dflt)` on a query parameter (`none` when absent). -/
def queryString (q : Option String) (dflt : String) : String :=
  match q with
  | none => dflt
  | some s => if s = "" then dflt else s

/-- The expression `Number(q || dflt)` on a query parameter (`none` when absent). -/
def queryNumber (B : Builtins) (q : Option String) (dflt : ℚ) : JSNum :=
  match q with
  | none => JSNum.fin dflt
  | some s => if s = "" then JSNum.fin dflt else B.stringToNumber s

/-- Variables `x`, `R` of one `/api/sim-stream` connection, with the file they write. -/
structure SimState where
  x : JSNum
  R : JSNum
  store : Store

/-- One run of the `setInterval` callback of `/api/sim-stream`; `u` is the value
`Math.random()` returns if `sampleCrash` is called. -/
def simTick (B : Builtins) (id : String) (step : JSNum) (u : ℚ) (s : SimState) :
    SimState × Event :=
  let x := (JSNum.add s.x step).toFixed 2
  if x.ge s.R then
    let store := writeAppendCrash s.R id s.store
    ({ x := JSNum.fin 1, R := sampleCrash B store u, store := store }, Event.simCrash id s.R)
  else
    ({ x := x, R := s.R, store := s.store }, Event.simTick id x s.R)

/-- Successive runs of the `/api/sim-stream` callback, one per random draw, with the events
written. -/
def simRun (B : Builtins) (id : String) (step : JSNum) : List ℚ → SimState → SimState × List Event
  | [], s => (s, [])
  | u :: us, s =>
    let r := simTick B id step u s
    let rest := simRun B id step us r.1
    (rest.1, r.2 :: rest.2)

/-- Query parameters of `/api/pf-stream`. -/
structure PfQuery where
  server : Option String
  client : Option String
  nonce : Option String
  edge : Option String
  step : Option String
  period : Option String

/-- Constants `server`, `client`, `edge`, `step` of one `/api/pf-stream` connection. -/
structure PfConfig where
  server : String
  client : String
  edge : JSNum
  step : JSNum

/-- Variables `x`, `R`, `nonce` of one `/api/pf-stream` connection, with the file they
write. -/
structure PfState where
  x : JSNum
  R : JSNum
  nonce : JSNum
  store : Store

/-- The statements of `/api/pf-stream` that persist a crash: the array read from the file with
the record `{ session_id: 'pf', multiplier: crashVal }` pushed, written back. -/
def pfPersist (crashVal : JSNum) (st : Store) : Store :=
  let mainArr : List Json :=
    match st with
    | Store.json (Json.arr items) => items
    | _ => []
  Store.json (Json.arr (mainArr ++ [record (Json.str "pf") crashVal]))

/-- The handler of `/api/pf-stream` up to the start of the timer: the parameters are read,
an error event is written when a seed is empty or the nonce is NaN, and in every case the
first threshold is computed and the loop is set up. -/
def pfInit (B : Builtins) (q : PfQuery) (st : Store) : PfConfig × PfState × List Event :=
  let server := queryString q.server ""
  let client := queryString q.client ""
  let nonce := queryNumber B q.nonce 0
  let edge := queryNumber B q.edge (99 / 100)
  let step := queryNumber B q.step (1 / 100)
  let events :=
    if server = "" ∨ client = "" ∨ nonce.isNaN = true then
      [Event.pfError "server, client, nonce required"]
    else []
  ({ server := server, client := client, edge := edge, step := step },
   { x := JSNum.fin 1, R := crashR B server client nonce edge, nonce := nonce, store := st },
   events)

/-- One run of the `setInterval` callback of `/api/pf-stream`. -/
def pfTick (B : Builtins) (cfg : PfConfig) (s : PfState) : PfState × Event :=
  let x := (JSNum.add s.x cfg.step).toFixed 2
  if x.ge s.R then
    let crashVal := s.R.toFixed 2
    let store := pfPersist crashVal s.store
    let nonce := JSNum.add s.nonce (JSNum.fin 1)
    ({ x := JSNum.fin 1, R := crashR B cfg.server cfg.client nonce cfg.edge, nonce := nonce,
       store := store },
     Event.pfCrash crashVal s.nonce)
  else
    ({ x := x, R := s.R, nonce := s.nonce, store := s.store },
     Event.pfTick x (s.R.toFixed 2) s.nonce)

/-- Successive runs of the `/api/pf-stream` callback, with the events written. -/
def pfRun (B : Builtins) (cfg : PfConfig) : ℕ → PfState → PfState × List Event
  | 0, s => (s, [])
  | k + 1, s =>
    let r := pfTick B cfg s
    let rest := pfRun B cfg k r.1
    (rest.1, r.2 :: rest.2)

/-- A fixed choice of library functions: every digest is sixty-four zeros, `parseFloat` knows
the word `Infinity` only. It instantiates the statements that hold for every choice. -/
def sampleBuiltins : Builtins :=
  { hmacSha256Hex := fun _ _ => String.mk (List.replicate 64 '0')
    numberToString := fun _ => "0"
    stringToNumber := fun _ => JSNum.nan
    objectToNumber := fun _ => JSNum.nan
    parseFloat := fun s => if s = "Infinity" then JSNum.posInf else JSNum.nan
    pow := fun _ _ => 1 }

/-- The request `/api/pf-stream?client=abc`: no server seed, every other parameter left to
its default. -/
def noServerQuery : PfQuery :=
  { server := none, client := some "abc", nonce := none, edge := none, step := none,
    period := none }

/-! ## Theorems -/

theorem hexDigitVal_lt {c : Char} {d : ℕ} (h : hexDigitVal c = some d) : d < 16 := by
  unfold hexDigitVal at h
  split_ifs at h with h1 h2 h3 <;> simp at h <;> omega

theorem hexValue_foldl_lt (ds : List ℕ) (hd : ∀ d ∈ ds, d < 16) (acc k : ℕ)
    (hacc : acc < 16 ^ k) :
    ds.foldl (fun acc d => 16 * acc + d) acc < 16 ^ (k + ds.length) := by
  induction ds generalizing acc k with
  | nil => simpa using hacc
  | cons d ds ih =>
    have hd16 : d < 16 := hd d (by simp)
    have hstep : 16 * acc + d < 16 ^ (k + 1) := by
      have : 16 * (acc + 1) ≤ 16 * 16 ^ k := Nat.mul_le_mul_left 16 hacc
      rw [pow_succ]; omega
    have := ih (fun e he => hd e (by simp [he])) (16 * acc + d) (k + 1) hstep
    simpa [List.foldl, Nat.add_assoc, Nat.add_comm 1] using this

theorem hexValue_lt (ds : List ℕ) (hd : ∀ d ∈ ds, d < 16) : hexValue ds < 16 ^ ds.length := by
  have := hexValue_foldl_lt ds hd 0 0 (by simp)
  simpa [hexValue] using this

theorem hexRun_length_of_all (s : List Char) (h : ∀ c ∈ s, (hexDigitVal c).isSome) :
    (hexRun s).length = s.length ∧ ∀ d ∈ hexRun s, d < 16 := by
  induction s with
  | nil => simp [hexRun]
  | cons c cs ih =>
    have hc := h c (by simp)
    obtain ⟨d, hd⟩ := Option.isSome_iff_exists.mp hc
    have ih2 := ih (fun e he => h e (by simp [he]))
    simp only [hexRun, hd, List.length_cons, List.mem_cons]
    refine ⟨by rw [ih2.1], ?_⟩
    intro e he
    rcases he with rfl | he
    · exact hexDigitVal_lt hd
    · exact ih2.2 e he

theorem parseInt16_of_all (s : List Char) (h : ∀ c ∈ s, (hexDigitVal c).isSome)
    (hne : s ≠ []) :
    parseInt16 s = JSNum.fin (hexValue (hexRun s)) ∧ hexValue (hexRun s) < 16 ^ s.length := by
  obtain ⟨hlen, hd⟩ := hexRun_length_of_all s h
  have hlt := hexValue_lt (hexRun s) hd
  rw [hlen] at hlt
  refine ⟨?_, hlt⟩
  unfold parseInt16
  cases hr : hexRun s with
  | nil =>
    rw [hr] at hlen
    exact absurd (List.length_eq_zero.mp hlen.symm) hne
  | cons d ds => rfl

theorem clampUnit_bounds (u : ℚ) : eps ≤ clampUnit u ∧ clampUnit u ≤ 1 - eps := by
  unfold clampUnit
  refine ⟨le_max_right _ _, max_le (min_le_right _ _) ?_⟩
  unfold eps
  norm_num

theorem js_sub_fin (a b : ℚ) : JSNum.sub (JSNum.fin a) (JSNum.fin b) = JSNum.fin (a - b) := by
  simp [JSNum.sub, JSNum.neg, JSNum.add, sub_eq_add_neg]

theorem js_div_fin (a b : ℚ) (hb : b ≠ 0) :
    JSNum.div (JSNum.fin a) (JSNum.fin b) = JSNum.fin (a / b) := by
  simp [JSNum.div, hb]

theorem js_max_fin (a b : ℚ) : JSNum.max (JSNum.fin a) (JSNum.fin b) = JSNum.fin (max a b) :=
  rfl

theorem js_min_fin (a b : ℚ) : JSNum.min (JSNum.fin a) (JSNum.fin b) = JSNum.fin (min a b) :=
  rfl

theorem crashR_of_uniform (B : Builtins) (serverSeed clientSeed : String) (n : JSNum)
    (houseEdge u : ℚ) (hu : toUniform (hmacHex B serverSeed clientSeed n) = JSNum.fin u) :
    crashR B serverSeed clientSeed n (JSNum.fin houseEdge)
      = JSNum.fin (max 1 (houseEdge / (1 - clampUnit u))) := by
  have hb := clampUnit_bounds u
  have hpos : (0 : ℚ) < eps := by unfold eps; norm_num
  have hne : (1 : ℚ) - clampUnit u ≠ 0 := by linarith [hb.2]
  unfold crashR
  rw [hu]
  dsimp only
  rw [js_min_fin, js_max_fin, js_sub_fin]
  change JSNum.max (JSNum.fin 1) (JSNum.div (JSNum.fin houseEdge) (JSNum.fin (1 - clampUnit u)))
    = _
  rw [js_div_fin _ _ hne, js_max_fin]

/-- C1. For every digest made of hex digits and at least 13 characters long, and every house
edge strictly between 0 and 1, `toUniform` is the integer read from the first 13 characters
divided by `16^13`, the divisor `1 - clamp(u)` is positive, and `crashR` is the finite number
`max(1, houseEdge / (1 - clamp(u)))`, which is at least 1. -/
theorem crashR_ge_one (B : Builtins) (serverSeed clientSeed : String) (n : JSNum)
    (houseEdge : ℚ)
    (hhex : ∀ c ∈ (hmacHex B serverSeed clientSeed n).data, (hexDigitVal c).isSome)
    (hlen : 13 ≤ (hmacHex B serverSeed clientSeed n).data.length)
    (h0 : 0 < houseEdge) (_h1 : houseEdge < 1) :
    ∃ num : ℕ, ∃ r : ℚ,
      parseInt16 ((hmacHex B serverSeed clientSeed n).data.take 13) = JSNum.fin num ∧
      num < 16 ^ 13 ∧
      toUniform (hmacHex B serverSeed clientSeed n) = JSNum.fin ((num : ℚ) / 16 ^ 13) ∧
      0 < 1 - clampUnit ((num : ℚ) / 16 ^ 13) ∧
      0 < houseEdge / (1 - clampUnit ((num : ℚ) / 16 ^ 13)) ∧
      r = max 1 (houseEdge / (1 - clampUnit ((num : ℚ) / 16 ^ 13))) ∧
      crashR B serverSeed clientSeed n (JSNum.fin houseEdge) = JSNum.fin r ∧
      1 ≤ r := by
  set hex := hmacHex B serverSeed clientSeed n with hhexdef
  have hl : (hex.data.take 13).length = 13 := by
    rw [List.length_take]; omega
  have hall : ∀ c ∈ hex.data.take 13, (hexDigitVal c).isSome :=
    fun c hc => hhex c (List.mem_of_mem_take hc)
  have hne : hex.data.take 13 ≠ [] := by
    intro h0; rw [h0] at hl; simp at hl
  obtain ⟨hp, hlt⟩ := parseInt16_of_all _ hall hne
  rw [hl] at hlt
  have hu : toUniform hex
      = JSNum.fin (((hexValue (hexRun (hex.data.take 13)) : ℕ) : ℚ) / 16 ^ 13) := by
    have h16 : ((16 : ℚ) ^ 13) ≠ 0 := by norm_num
    simp only [toUniform, hp, hl, JSNum.div, if_neg h16]
  have hb := clampUnit_bounds (((hexValue (hexRun (hex.data.take 13)) : ℕ) : ℚ) / 16 ^ 13)
  have hpos : (0 : ℚ) < eps := by unfold eps; norm_num
  have hden : 0 < 1 - clampUnit (((hexValue (hexRun (hex.data.take 13)) : ℕ) : ℚ) / 16 ^ 13) := by
    linarith [hb.2]
  refine ⟨hexValue (hexRun (hex.data.take 13)), _, hp, hlt, hu, hden, div_pos h0 hden, rfl,
    crashR_of_uniform B serverSeed clientSeed n houseEdge _ hu, le_max_left _ _⟩

/-! ### Rounding -/

theorem floor_add_half (k : ℤ) : ⌊(k : ℚ) + 1 / 2⌋ = k := by
  rw [Int.floor_eq_iff]
  constructor <;> linarith

theorem roundNonneg_nonneg (d : ℕ) {x : ℚ} (hx : 0 ≤ x) : 0 ≤ roundNonneg d x := by
  unfold roundNonneg
  split_ifs with h
  · exact hx
  · apply div_nonneg _ (by positivity)
    have : (0 : ℤ) ≤ ⌊x * 10 ^ d + 1 / 2⌋ := by
      apply Int.floor_nonneg.mpr
      positivity
    exact_mod_cast this

theorem roundNonneg_mono (d : ℕ) {x y : ℚ} (hxy : x ≤ y) :
    roundNonneg d x ≤ roundNonneg d y := by
  have hp : (0 : ℚ) < 10 ^ d := by positivity
  unfold roundNonneg
  split_ifs with hx hy hy
  · exact hxy
  · exact absurd (le_trans hx hxy) hy
  · rw [div_le_iff₀ hp]
    have h1 : ⌊x * 10 ^ d + 1 / 2⌋ ≤ ((10 : ℤ) ^ 21 * 10 ^ d) := by
      have : ⌊x * 10 ^ d + 1 / 2⌋ < ((10 : ℤ) ^ 21 * 10 ^ d) + 1 := by
        rw [Int.floor_lt]
        push_cast
        have hx' : x < 10 ^ 21 := lt_of_not_le hx
        have : x * 10 ^ d < 10 ^ 21 * 10 ^ d := mul_lt_mul_of_pos_right hx' hp
        linarith
      omega
    have h2 : ((⌊x * 10 ^ d + 1 / 2⌋ : ℤ) : ℚ) ≤ (10 : ℚ) ^ 21 * 10 ^ d := by exact_mod_cast h1
    have h3 : (10 : ℚ) ^ 21 * 10 ^ d ≤ y * 10 ^ d := mul_le_mul_of_nonneg_right hy hp.le
    linarith
  · apply div_le_div_of_nonneg_right _ hp.le
    have : ⌊x * 10 ^ d + 1 / 2⌋ ≤ ⌊y * 10 ^ d + 1 / 2⌋ := by
      apply Int.floor_mono
      have := mul_le_mul_of_nonneg_right hxy hp.le
      linarith
    exact_mod_cast this

theorem toFixedNum_mono (d : ℕ) {x y : ℚ} (hxy : x ≤ y) : toFixedNum d x ≤ toFixedNum d y := by
  unfold toFixedNum
  split_ifs with hx hy hy
  · exact neg_le_neg (roundNonneg_mono d (neg_le_neg hxy))
  · have h1 := roundNonneg_nonneg d (x := -x) (by linarith)
    have h2 := roundNonneg_nonneg d (x := y) (by linarith)
    linarith
  · exact absurd (lt_of_le_of_lt hxy hy) hx
  · exact roundNonneg_mono d hxy

/-- A number with at most `d` decimals is left unchanged by the rounding. -/
theorem toFixedNum_of_scaled_int (d : ℕ) (x : ℚ) (k : ℤ) (hk : x * 10 ^ d = k) :
    toFixedNum d x = x := by
  have hp : (0 : ℚ) < 10 ^ d := by positivity
  have hx : x = (k : ℚ) / 10 ^ d := by rw [← hk]; field_simp
  unfold toFixedNum roundNonneg
  split_ifs with h1 h2 h3
  · ring
  · have : -x * 10 ^ d + 1 / 2 = ((-k : ℤ) : ℚ) + 1 / 2 := by push_cast; linarith
    rw [this, floor_add_half, hx]; push_cast; ring
  · rfl
  · rw [hk, floor_add_half, hx]

theorem toFixedNum_zero (d : ℕ) : toFixedNum d 0 = 0 :=
  toFixedNum_of_scaled_int d 0 0 (by simp)

theorem toFixedNum_one (d : ℕ) : toFixedNum d 1 = 1 :=
  toFixedNum_of_scaled_int d 1 (10 ^ d) (by push_cast; ring)

/-! ### The summary on the sample `[1, 2, 2, 3, 5]` -/

theorem example_mean : meanRaw [1, 2, 2, 3, 5] = 13 / 5 := by
  norm_num [meanRaw]

theorem example_median : medianRaw [1, 2, 2, 3, 5] = 2 := by
  norm_num [medianRaw, List.insertionSort, List.orderedInsert]

theorem example_pge :
    pgeEntry [1, 2, 2, 3, 5] (3 / 2) = 4 / 5 ∧ pgeEntry [1, 2, 2, 3, 5] 2 = 4 / 5 ∧
    pgeEntry [1, 2, 2, 3, 5] 3 = 2 / 5 ∧ pgeEntry [1, 2, 2, 3, 5] 5 = 1 / 5 ∧
    pgeEntry [1, 2, 2, 3, 5] 10 = 0 := by
  refine ⟨?_, ?_, ?_, ?_, ?_⟩
  · have : pgeEntry [1, 2, 2, 3, 5] (3 / 2) = toFixedNum 6 (4 / 5) := by
      norm_num [pgeEntry, List.filter]
    rw [this]
    exact toFixedNum_of_scaled_int 6 _ 800000 (by norm_num)
  · have : pgeEntry [1, 2, 2, 3, 5] 2 = toFixedNum 6 (4 / 5) := by
      norm_num [pgeEntry, List.filter]
    rw [this]
    exact toFixedNum_of_scaled_int 6 _ 800000 (by norm_num)
  · have : pgeEntry [1, 2, 2, 3, 5] 3 = toFixedNum 6 (2 / 5) := by
      norm_num [pgeEntry, List.filter]
    rw [this]
    exact toFixedNum_of_scaled_int 6 _ 400000 (by norm_num)
  · have : pgeEntry [1, 2, 2, 3, 5] 5 = toFixedNum 6 (1 / 5) := by
      norm_num [pgeEntry, List.filter]
    rw [this]
    exact toFixedNum_of_scaled_int 6 _ 200000 (by norm_num)
  · have : pgeEntry [1, 2, 2, 3, 5] 10 = toFixedNum 6 0 := by
      norm_num [pgeEntry, List.filter]
    rw [this]
    exact toFixedNum_zero 6

theorem example_pgeAt :
    (apiSummary [1, 2, 2, 3, 5]).pgeAt (3 / 2) = some (4 / 5) ∧
    (apiSummary [1, 2, 2, 3, 5]).pgeAt 2 = some (4 / 5) ∧
    (apiSummary [1, 2, 2, 3, 5]).pgeAt 3 = some (2 / 5) ∧
    (apiSummary [1, 2, 2, 3, 5]).pgeAt 5 = some (1 / 5) ∧
    (apiSummary [1, 2, 2, 3, 5]).pgeAt 10 = some 0 := by
  obtain ⟨h1, h2, h3, h4, h5⟩ := example_pge
  refine ⟨?_, ?_, ?_, ?_, ?_⟩ <;>
    norm_num [Summary.pgeAt, apiSummary, thresholds, List.find?, h1, h2, h3, h4, h5]

/-- C2 (as the code computes it). On the sample `[1, 2, 2, 3, 5]` the summary is `n = 5`,
`mean = 2.6`, `median = 2`, `pge[1.5] = 0.8`, `pge[2] = 0.8`, `pge[3] = 0.4`, `pge[5] = 0.2`
and `pge[10] = 0`. -/
theorem apiSummary_example :
    (apiSummary [1, 2, 2, 3, 5]).n = 5 ∧
    (apiSummary [1, 2, 2, 3, 5]).mean = 13 / 5 ∧
    (apiSummary [1, 2, 2, 3, 5]).median = 2 ∧
    (apiSummary [1, 2, 2, 3, 5]).pgeAt (3 / 2) = some (4 / 5) ∧
    (apiSummary [1, 2, 2, 3, 5]).pgeAt 2 = some (4 / 5) ∧
    (apiSummary [1, 2, 2, 3, 5]).pgeAt 3 = some (2 / 5) ∧
    (apiSummary [1, 2, 2, 3, 5]).pgeAt 5 = some (1 / 5) ∧
    (apiSummary [1, 2, 2, 3, 5]).pgeAt 10 = some 0 := by
  refine ⟨rfl, ?_, ?_, example_pgeAt⟩
  · show toFixedNum 6 (meanRaw [1, 2, 2, 3, 5]) = 13 / 5
    rw [example_mean]
    exact toFixedNum_of_scaled_int 6 _ 2600000 (by norm_num)
  · show toFixedNum 6 (medianRaw [1, 2, 2, 3, 5]) = 2
    rw [example_median]
    exact toFixedNum_of_scaled_int 6 _ 2000000 (by norm_num)

/-- C2 (as stated) fails: on `[1, 2, 2, 3, 5]` the summary is not `n = 5`, `mean = 2.6`,
`median = 2`, `pge[1.5] = 0.8`, `pge[2] = 0.6`, `pge[3] = 0.2`, `pge[5] = 0.2`, `pge[10] = 0`:
four of the five values are at least 2 and two are at least 3. -/
theorem apiSummary_example_as_stated_fails :
    ¬ ((apiSummary [1, 2, 2, 3, 5]).n = 5 ∧
      (apiSummary [1, 2, 2, 3, 5]).mean = 13 / 5 ∧
      (apiSummary [1, 2, 2, 3, 5]).median = 2 ∧
      (apiSummary [1, 2, 2, 3, 5]).pgeAt (3 / 2) = some (4 / 5) ∧
      (apiSummary [1, 2, 2, 3, 5]).pgeAt 2 = some (3 / 5) ∧
      (apiSummary [1, 2, 2, 3, 5]).pgeAt 3 = some (1 / 5) ∧
      (apiSummary [1, 2, 2, 3, 5]).pgeAt 5 = some (1 / 5) ∧
      (apiSummary [1, 2, 2, 3, 5]).pgeAt 10 = some 0) := by
  rintro ⟨-, -, -, -, h2, -⟩
  rw [example_pgeAt.2.1] at h2
  norm_num at h2

/-! ### Median, minimum and maximum -/

theorem foldl_min_spec (l : List ℚ) (a : ℚ) :
    (l.foldl min a ≤ a ∧ ∀ v ∈ l, l.foldl min a ≤ v) ∧ (l.foldl min a = a ∨ l.foldl min a ∈ l) := by
  induction l generalizing a with
  | nil => simp
  | cons b l ih =>
    obtain ⟨⟨h1, h2⟩, h3⟩ := ih (min a b)
    simp only [List.foldl_cons, List.mem_cons]
    refine ⟨⟨le_trans h1 (min_le_left _ _), ?_⟩, ?_⟩
    · intro v hv
      rcases hv with rfl | hv
      · exact le_trans h1 (min_le_right _ _)
      · exact h2 v hv
    · rcases h3 with h3 | h3
      · rcases min_choice a b with h | h
        · left; rw [h3, h]
        · right; left; rw [h3, h]
      · right; right; exact h3

theorem foldl_max_spec (l : List ℚ) (a : ℚ) :
    (a ≤ l.foldl max a ∧ ∀ v ∈ l, v ≤ l.foldl max a) ∧ (l.foldl max a = a ∨ l.foldl max a ∈ l) := by
  induction l generalizing a with
  | nil => simp
  | cons b l ih =>
    obtain ⟨⟨h1, h2⟩, h3⟩ := ih (max a b)
    simp only [List.foldl_cons, List.mem_cons]
    refine ⟨⟨le_trans (le_max_left _ _) h1, ?_⟩, ?_⟩
    · intro v hv
      rcases hv with rfl | hv
      · exact le_trans (le_max_right _ _) h1
      · exact h2 v hv
    · rcases h3 with h3 | h3
      · rcases max_choice a b with h | h
        · left; rw [h3, h]
        · right; left; rw [h3, h]
      · right; right; exact h3

theorem sampleMin_le {S : List ℚ} {v : ℚ} (hv : v ∈ S) : sampleMin S ≤ v := by
  cases S with
  | nil => simp at hv
  | cons a l =>
    have h := (foldl_min_spec l a).1
    rcases List.mem_cons.mp hv with rfl | hv
    · exact h.1
    · exact h.2 v hv

theorem le_sampleMax {S : List ℚ} {v : ℚ} (hv : v ∈ S) : v ≤ sampleMax S := by
  cases S with
  | nil => simp at hv
  | cons a l =>
    have h := (foldl_max_spec l a).1
    rcases List.mem_cons.mp hv with rfl | hv
    · exact h.1
    · exact h.2 v hv

theorem sampleMin_mem {S : List ℚ} (hS : S ≠ []) : sampleMin S ∈ S := by
  cases S with
  | nil => exact absurd rfl hS
  | cons a l =>
    rcases (foldl_min_spec l a).2 with h | h
    · simp [sampleMin, h]
    · exact List.mem_cons_of_mem _ h

theorem sampleMax_mem {S : List ℚ} (hS : S ≠ []) : sampleMax S ∈ S := by
  cases S with
  | nil => exact absurd rfl hS
  | cons a l =>
    rcases (foldl_max_spec l a).2 with h | h
    · simp [sampleMax, h]
    · exact List.mem_cons_of_mem _ h

theorem getD_sorted_mem (S : List ℚ) (i : ℕ) (hi : i < S.length) :
    (S.insertionSort (fun a b => a ≤ b)).getD i 0 ∈ S := by
  have hlen : i < (S.insertionSort (fun a b => a ≤ b)).length := by
    rw [List.length_insertionSort]; exact hi
  have hmem : (S.insertionSort (fun a b => a ≤ b)).getD i 0
      ∈ S.insertionSort (fun a b => a ≤ b) := by
    rw [List.getD_eq_getElem _ _ hlen]
    exact List.getElem_mem hlen
  exact (List.perm_insertionSort _ S).mem_iff.mp hmem

theorem medianRaw_bounds (S : List ℚ) (hS : S ≠ []) :
    sampleMin S ≤ medianRaw S ∧ medianRaw S ≤ sampleMax S := by
  have hn : S.length ≠ 0 := fun h => hS (List.length_eq_zero.mp h)
  unfold medianRaw
  simp only [hn, ne_eq, not_false_eq_true, if_true]
  split_ifs with heven
  · have ha := getD_sorted_mem S (S.length / 2 - 1) (by omega)
    have hb := getD_sorted_mem S (S.length / 2) (by omega)
    have h1 := sampleMin_le ha
    have h2 := sampleMin_le hb
    have h3 := le_sampleMax ha
    have h4 := le_sampleMax hb
    constructor
    · rw [le_div_iff₀ (by norm_num)]; linarith
    · rw [div_le_iff₀ (by norm_num)]; linarith
  · have hm := getD_sorted_mem S ((S.length - 1) / 2) (by omega)
    exact ⟨sampleMin_le hm, le_sampleMax hm⟩

/-- C3 (as the code computes it). For a non-empty sample, the median before rounding (the
middle element of the sorted sample, or the mean of the two central ones) lies between the
minimum and the maximum of the sample; the reported median is that value rounded to 6
decimals, and lies between the minimum and the maximum rounded to 6 decimals. -/
theorem median_between_min_max (S : List ℚ) (hS : S ≠ []) :
    sampleMin S ≤ medianRaw S ∧ medianRaw S ≤ sampleMax S ∧
    (apiSummary S).median = toFixedNum 6 (medianRaw S) ∧
    toFixedNum 6 (sampleMin S) ≤ (apiSummary S).median ∧
    (apiSummary S).median ≤ toFixedNum 6 (sampleMax S) := by
  obtain ⟨h1, h2⟩ := medianRaw_bounds S hS
  exact ⟨h1, h2, rfl, toFixedNum_mono 6 h1, toFixedNum_mono 6 h2⟩

theorem median_between_min_max_witness :
    ([1, 4, 2] : List ℚ) ≠ [] ∧
    (sampleMin [1, 4, 2] ≤ medianRaw [1, 4, 2] ∧ medianRaw [1, 4, 2] ≤ sampleMax [1, 4, 2] ∧
    (apiSummary [1, 4, 2]).median = toFixedNum 6 (medianRaw [1, 4, 2]) ∧
    toFixedNum 6 (sampleMin [1, 4, 2]) ≤ (apiSummary [1, 4, 2]).median ∧
    (apiSummary [1, 4, 2]).median ≤ toFixedNum 6 (sampleMax [1, 4, 2])) :=
  ⟨by simp, median_between_min_max [1, 4, 2] (by simp)⟩

/-- C3 (as stated) fails: for the one-element sample `[1.0000004]` the summary reports the
median `1`, which is below the minimum of the sample. -/
theorem reported_median_below_min :
    (apiSummary [10000004 / 10000000]).median = 1 ∧
    sampleMin [10000004 / 10000000] = 10000004 / 10000000 ∧
    ¬ (sampleMin [10000004 / 10000000] ≤ (apiSummary [10000004 / 10000000]).median ∧
      (apiSummary [10000004 / 10000000]).median ≤ sampleMax [10000004 / 10000000]) := by
  have hm : (apiSummary [10000004 / 10000000]).median = 1 := by
    have h1 : medianRaw [10000004 / 10000000] = 10000004 / 10000000 := by
      norm_num [medianRaw, List.insertionSort, List.orderedInsert]
    show toFixedNum 6 (medianRaw [10000004 / 10000000]) = 1
    rw [h1]
    have hf : ⌊(10000004 / 10000000 : ℚ) * 10 ^ 6 + 1 / 2⌋ = 1000000 := by
      rw [Int.floor_eq_iff]; constructor <;> norm_num
    unfold toFixedNum roundNonneg
    rw [if_neg (by norm_num), if_neg (by norm_num), hf]
    norm_num
  have hmin : sampleMin [10000004 / 10000000] = 10000004 / 10000000 := by
    simp [sampleMin]
  refine ⟨hm, hmin, ?_⟩
  rw [hm, hmin]
  norm_num

/-! ### Survival fractions -/

theorem pgeAt_apiSummary (S : List ℚ) (t : ℚ) (ht : t ∈ thresholds) :
    (apiSummary S).pgeAt t = some (pgeEntry S t) := by
  simp only [thresholds, List.mem_cons, List.mem_singleton, List.not_mem_nil, or_false] at ht
  rcases ht with rfl | rfl | rfl | rfl | rfl <;>
    norm_num [Summary.pgeAt, apiSummary, thresholds, List.find?]

/-- C4. For every sample `S` and every threshold `t` of `1.5, 2, 3, 5, 10`, the entry `pge[t]`
is `0` for the empty sample and otherwise the number of values `≥ t` divided by the size of
`S`, rounded to 6 decimals; it always lies between 0 and 1. -/
theorem pge_is_rounded_fraction (S : List ℚ) (t : ℚ) (ht : t ∈ thresholds) :
    ∃ v : ℚ, (apiSummary S).pgeAt t = some v ∧
      (S = [] → v = 0) ∧
      (S ≠ [] → v = toFixedNum 6 ((S.countP (fun x => decide (t ≤ x)) : ℚ) / (S.length : ℚ))) ∧
      0 ≤ v ∧ v ≤ 1 := by
  refine ⟨pgeEntry S t, pgeAt_apiSummary S t ht, ?_, ?_, ?_⟩
  · rintro rfl
    simp [pgeEntry]
  · intro hS
    have hn : S.length ≠ 0 := fun h => hS (List.length_eq_zero.mp h)
    simp [pgeEntry, hn, List.countP_eq_length_filter]
  · unfold pgeEntry
    by_cases hn : S.length = 0
    · simp [hn]
    · simp only [hn, ne_eq, not_false_eq_true, if_true]
      have hpos : (0 : ℚ) < S.length := by
        exact_mod_cast Nat.pos_of_ne_zero hn
      have hc : ((S.filter (fun v => decide (t ≤ v))).length : ℚ) ≤ S.length := by
        exact_mod_cast List.length_filter_le _ S
      have h0 : (0 : ℚ) ≤ ((S.filter (fun v => decide (t ≤ v))).length : ℚ) / S.length := by
        positivity
      have h1 : ((S.filter (fun v => decide (t ≤ v))).length : ℚ) / S.length ≤ 1 := by
        rw [div_le_one hpos]; exact hc
      constructor
      · have := toFixedNum_mono 6 h0
        rwa [toFixedNum_zero] at this
      · have := toFixedNum_mono 6 h1
        rwa [toFixedNum_one] at this

theorem pge_is_rounded_fraction_witness :
    (2 : ℚ) ∈ thresholds ∧
    ∃ v : ℚ, (apiSummary [1, 2, 2, 3, 5]).pgeAt 2 = some v ∧
      (([1, 2, 2, 3, 5] : List ℚ) = [] → v = 0) ∧
      (([1, 2, 2, 3, 5] : List ℚ) ≠ [] →
        v = toFixedNum 6 ((([1, 2, 2, 3, 5] : List ℚ).countP (fun x => decide (2 ≤ x)) : ℚ)
          / (([1, 2, 2, 3, 5] : List ℚ).length : ℚ))) ∧
      0 ≤ v ∧ v ≤ 1 :=
  ⟨by simp [thresholds], pge_is_rounded_fraction [1, 2, 2, 3, 5] 2 (by simp [thresholds])⟩

/-! ### Determinism of `crashR` -/

theorem pfTick_store_irrelevant (B : Builtins) (cfg : PfConfig) (s t : PfState)
    (hx : s.x = t.x) (hR : s.R = t.R) (hn : s.nonce = t.nonce) :
    (pfTick B cfg s).2 = (pfTick B cfg t).2 ∧
    (pfTick B cfg s).1.x = (pfTick B cfg t).1.x ∧
    (pfTick B cfg s).1.R = (pfTick B cfg t).1.R ∧
    (pfTick B cfg s).1.nonce = (pfTick B cfg t).1.nonce := by
  unfold pfTick
  rw [hx, hR, hn]
  dsimp only
  split_ifs <;> simp

theorem pfRun_store_irrelevant (B : Builtins) (cfg : PfConfig) (k : ℕ) (s t : PfState)
    (hx : s.x = t.x) (hR : s.R = t.R) (hn : s.nonce = t.nonce) :
    (pfRun B cfg k s).2 = (pfRun B cfg k t).2 ∧
    (pfRun B cfg k s).1.x = (pfRun B cfg k t).1.x ∧
    (pfRun B cfg k s).1.R = (pfRun B cfg k t).1.R ∧
    (pfRun B cfg k s).1.nonce = (pfRun B cfg k t).1.nonce := by
  induction k generalizing s t with
  | zero => simp [pfRun, hx, hR, hn]
  | succ k ih =>
    obtain ⟨he, h1, h2, h3⟩ := pfTick_store_irrelevant B cfg s t hx hR hn
    obtain ⟨ie, i1, i2, i3⟩ := ih (pfTick B cfg s).1 (pfTick B cfg t).1 h1 h2 h3
    simp only [pfRun]
    exact ⟨by rw [he, ie], i1, i2, i3⟩

theorem pfRun_threshold (B : Builtins) (cfg : PfConfig) (k : ℕ) (s : PfState)
    (hR : s.R = crashR B cfg.server cfg.client s.nonce cfg.edge) :
    (pfRun B cfg k s).1.R
      = crashR B cfg.server cfg.client (pfRun B cfg k s).1.nonce cfg.edge := by
  induction k generalizing s with
  | zero => simpa [pfRun] using hR
  | succ k ih =>
    simp only [pfRun]
    apply ih
    unfold pfTick
    dsimp only
    split_ifs
    · rfl
    · exact hR

/-- C9. The value of `crashR` is determined by the HMAC digest of its seeds and nonce and by
the house edge: two evaluations that see the same digest and the same house edge, whatever
the other library functions do, return the same number. In a `/api/pf-stream` connection the
threshold is at every moment `crashR` of the connection's seeds, current nonce and house edge,
and neither the thresholds nor the events depend on the content of the dataset. -/
theorem crashR_deterministic :
    (∀ (B B' : Builtins) (s c s' c' : String) (n n' e : JSNum),
      hmacHex B s c n = hmacHex B' s' c' n' → crashR B s c n e = crashR B' s' c' n' e) ∧
    (∀ (B : Builtins) (q : PfQuery) (st : Store) (k : ℕ),
      (pfRun B (pfInit B q st).1 k (pfInit B q st).2.1).1.R
        = crashR B (pfInit B q st).1.server (pfInit B q st).1.client
            (pfRun B (pfInit B q st).1 k (pfInit B q st).2.1).1.nonce (pfInit B q st).1.edge) ∧
    (∀ (B : Builtins) (q : PfQuery) (st st' : Store) (k : ℕ),
      (pfRun B (pfInit B q st).1 k (pfInit B q st).2.1).2
        = (pfRun B (pfInit B q st').1 k (pfInit B q st').2.1).2 ∧
      (pfRun B (pfInit B q st).1 k (pfInit B q st).2.1).1.R
        = (pfRun B (pfInit B q st').1 k (pfInit B q st').2.1).1.R) := by
  refine ⟨?_, ?_, ?_⟩
  · intro B B' s c s' c' n n' e h
    unfold crashR
    rw [h]
  · intro B q st k
    exact pfRun_threshold B _ k _ rfl
  · intro B q st st' k
    have h := pfRun_store_irrelevant B (pfInit B q st).1 k (pfInit B q st).2.1
      (pfInit B q st').2.1 rfl rfl rfl
    exact ⟨h.1, h.2.2.1⟩

/-! ### The dataset reader -/

theorem mapMultiplier_of_no_null (B : Builtins) (items : List Json)
    (h : ∀ r ∈ items, r ≠ Json.null) :
    ∃ ms : List (Option Json),
      ms.length = items.length ∧
      (∀ i (hi : i < items.length) (hm : i < ms.length),
        getProp (items.get ⟨i, hi⟩) "multiplier" = Except.ok (ms.get ⟨i, hm⟩)) ∧
      mapMultiplier B items = Except.ok (ms.map (toNumber B)) := by
  induction items with
  | nil => exact ⟨[], rfl, fun i hi => absurd hi (by simp), rfl⟩
  | cons r rs ih =>
    obtain ⟨ms, hlen, hget, hmap⟩ := ih (fun x hx => h x (List.mem_cons_of_mem _ hx))
    have hr : r ≠ Json.null := h r (by simp)
    obtain ⟨m, hm⟩ : ∃ m, getProp r "multiplier" = Except.ok m := by
      cases r with
      | null => exact absurd rfl hr
      | obj fields => exact ⟨_, rfl⟩
      | bool b => exact ⟨_, rfl⟩
      | num q => exact ⟨_, rfl⟩
      | str s => exact ⟨_, rfl⟩
      | arr xs => exact ⟨_, rfl⟩
    refine ⟨m :: ms, by simp [hlen], ?_, ?_⟩
    · intro i hi hmi
      cases i with
      | zero => simpa using hm
      | succ j =>
        simp only [List.get_eq_getElem, List.getElem_cons_succ]
        have := hget j (by simpa using hi) (by simpa using hmi)
        simpa using this
    · simp [mapMultiplier, hm, hmap]

theorem mapMultiplier_of_null (B : Builtins) (items : List Json) (h : Json.null ∈ items) :
    mapMultiplier B items = Except.error () := by
  induction items with
  | nil => simp at h
  | cons r rs ih =>
    rcases List.mem_cons.mp h with h0 | h0
    · subst h0
      simp [mapMultiplier, getProp]
    · have := ih h0
      unfold mapMultiplier
      cases hg : getProp r "multiplier" with
      | error e => rfl
      | ok m => simp [this]

/-- What `readMainValues` returns: nothing when the file is absent, unparseable or not an
array, nothing when the stored array holds a `null` entry, and otherwise, in store order, the
numbers `Number(r.multiplier)` that are not NaN and are at least 1. -/
theorem readMainValues_spec (B : Builtins) :
    readMainValues B Store.missing = [] ∧ readMainValues B Store.corrupt = [] ∧
    (∀ j, (∀ items, j ≠ Json.arr items) → readMainValues B (Store.json j) = []) ∧
    (∀ items, Json.null ∈ items → readMainValues B (Store.json (Json.arr items)) = []) ∧
    (∀ items, (∀ r ∈ items, r ≠ Json.null) →
      ∃ ms : List (Option Json), ms.length = items.length ∧
        (∀ i (hi : i < items.length) (hm : i < ms.length),
          getProp (items.get ⟨i, hi⟩) "multiplier" = Except.ok (ms.get ⟨i, hm⟩)) ∧
        readMainValues B (Store.json (Json.arr items))
          = (ms.map (toNumber B)).filter validValue) := by
  refine ⟨rfl, rfl, ?_, ?_, ?_⟩
  · intro j hj
    cases j with
    | arr items => exact absurd rfl (hj items)
    | null => rfl
    | bool b => rfl
    | num q => rfl
    | str s => rfl
    | obj fs => rfl
  · intro items h
    simp [readMainValues, mapMultiplier_of_null B items h]
  · intro items h
    obtain ⟨ms, hlen, hget, hmap⟩ := mapMultiplier_of_no_null B items h
    exact ⟨ms, hlen, hget, by simp [readMainValues, hmap]⟩

theorem readMainValues_valid (B : Builtins) (st : Store) :
    ∀ v ∈ readMainValues B st, v.ge (JSNum.fin 1) = true := by
  intro v hv
  have key : ∀ vs : List JSNum, v ∈ vs.filter validValue → v.ge (JSNum.fin 1) = true := by
    intro vs h
    have := (List.mem_filter.mp h).2
    simp only [validValue, Bool.and_eq_true] at this
    exact this.2
  unfold readMainValues at hv
  split at hv
  · split at hv
    · exact key _ hv
    · simp at hv
  · simp at hv

/-- C8 (the failing case). A stored array whose first entry is `null` and whose second entry
is the valid record `{ session_id: "web", multiplier: 2 }` is read as the empty sample by
`readMainValues` and by `loadValues`: the valid record is lost with the malformed one, while
the same array without the `null` entry is read as `[2]`. -/
theorem readMainValues_null_entry_drops_all (B : Builtins) :
    readMainValues B (Store.json (Json.arr
      [Json.null, Json.obj [("session_id", Json.str "web"), ("multiplier", Json.num 2)]])) = [] ∧
    loadValues B (Store.json (Json.arr
      [Json.null, Json.obj [("session_id", Json.str "web"), ("multiplier", Json.num 2)]])) = [] ∧
    readMainValues B (Store.json (Json.arr
      [Json.obj [("session_id", Json.str "web"), ("multiplier", Json.num 2)]]))
      = [JSNum.fin 2] := by
  refine ⟨rfl, rfl, ?_⟩
  simp [readMainValues, mapMultiplier, getProp, List.lookup, toNumber, validValue,
    JSNum.isNaN, JSNum.ge]

/-! ### The empirical sampler -/

theorem toFixed_ge_one (d : ℕ) (v : JSNum) (hv : v.ge (JSNum.fin 1) = true) :
    (v.toFixed d).ge (JSNum.fin 1) = true ∧
    JSNum.max (JSNum.fin 1) (v.toFixed d) = v.toFixed d := by
  cases v with
  | nan => simp [JSNum.ge] at hv
  | negInf => simp [JSNum.ge] at hv
  | posInf => exact ⟨rfl, rfl⟩
  | fin q =>
    have hq : (1 : ℚ) ≤ q := by simpa [JSNum.ge] using hv
    have h1 : (1 : ℚ) ≤ toFixedNum d q := by
      have := toFixedNum_mono d hq
      rwa [toFixedNum_one] at this
    refine ⟨by simpa [JSNum.toFixed, JSNum.ge] using h1, ?_⟩
    simp [JSNum.toFixed, JSNum.max, h1]

theorem draw_index_lt (n : ℕ) (u : ℚ) (hn : n ≠ 0) (hu0 : 0 ≤ u) (hu1 : u < 1) :
    (⌊u * (n : ℚ)⌋ : ℤ).toNat < n := by
  have hpos : (0 : ℚ) < n := by exact_mod_cast Nat.pos_of_ne_zero hn
  have h0 : (0 : ℤ) ≤ ⌊u * (n : ℚ)⌋ := Int.floor_nonneg.mpr (by positivity)
  have h1 : ⌊u * (n : ℚ)⌋ < (n : ℤ) := by
    rw [Int.floor_lt]
    have : u * (n : ℚ) < 1 * n := mul_lt_mul_of_pos_right hu1 hpos
    simpa using this
  omega

/-- C5. For every non-empty sample whose values are all at least 1 and every draw `u` with
`0 ≤ u < 1`, the index `floor(u * n)` is a valid index of the sample and `sampleCrash` returns
the entry at that index rounded to 2 decimals, a value that is at least 1. -/
theorem sampleCrash_nonempty (B : Builtins) (sample : List JSNum) (u : ℚ)
    (hne : sample ≠ []) (hall : ∀ v ∈ sample, v.ge (JSNum.fin 1) = true)
    (hu0 : 0 ≤ u) (hu1 : u < 1) :
    ∃ h : (⌊u * (sample.length : ℚ)⌋ : ℤ).toNat < sample.length,
      drawCrash B sample u
        = (sample.get ⟨(⌊u * (sample.length : ℚ)⌋ : ℤ).toNat, h⟩).toFixed 2 ∧
      (drawCrash B sample u).ge (JSNum.fin 1) = true ∧
      (∀ st, readMainValues B st = sample → sampleCrash B st u = drawCrash B sample u) := by
  have hn : sample.length ≠ 0 := fun h => hne (List.length_eq_zero.mp h)
  have hidx := draw_index_lt sample.length u hn hu0 hu1
  have hmem : sample.get ⟨_, hidx⟩ ∈ sample := List.get_mem _ _ _
  obtain ⟨hge, hmax⟩ := toFixed_ge_one 2 _ (hall _ hmem)
  have hval : drawCrash B sample u = (sample.get ⟨_, hidx⟩).toFixed 2 := by
    unfold drawCrash
    rw [if_neg hn]
    dsimp only
    rw [List.getD_eq_getElem _ _ hidx]
    exact hmax
  refine ⟨hidx, hval, ?_, ?_⟩
  · rw [hval]; exact hge
  · intro st hst
    unfold sampleCrash
    rw [hst]

theorem sampleCrash_nonempty_witness :
    ([JSNum.fin 2, JSNum.fin 3] : List JSNum) ≠ [] ∧
    (∀ v ∈ ([JSNum.fin 2, JSNum.fin 3] : List JSNum), v.ge (JSNum.fin 1) = true) ∧
    (0 : ℚ) ≤ 1 / 2 ∧ (1 / 2 : ℚ) < 1 ∧
    ∃ h : (⌊(1 / 2 : ℚ) * (([JSNum.fin 2, JSNum.fin 3] : List JSNum).length : ℚ)⌋ : ℤ).toNat
        < ([JSNum.fin 2, JSNum.fin 3] : List JSNum).length,
      drawCrash sampleBuiltins [JSNum.fin 2, JSNum.fin 3] (1 / 2)
        = (([JSNum.fin 2, JSNum.fin 3] : List JSNum).get
            ⟨(⌊(1 / 2 : ℚ) * (([JSNum.fin 2, JSNum.fin 3] : List JSNum).length : ℚ)⌋ : ℤ).toNat,
              h⟩).toFixed 2 ∧
      (drawCrash sampleBuiltins [JSNum.fin 2, JSNum.fin 3] (1 / 2)).ge (JSNum.fin 1) = true ∧
      (∀ st, readMainValues sampleBuiltins st = [JSNum.fin 2, JSNum.fin 3] →
        sampleCrash sampleBuiltins st (1 / 2)
          = drawCrash sampleBuiltins [JSNum.fin 2, JSNum.fin 3] (1 / 2)) :=
  ⟨by simp, by simp [JSNum.ge], by norm_num, by norm_num,
    sampleCrash_nonempty sampleBuiltins [JSNum.fin 2, JSNum.fin 3] (1 / 2) (by simp)
      (by simp [JSNum.ge]) (by norm_num) (by norm_num)⟩

/-! ### The tick step -/

theorem tick_101 : toFixedNum 2 (1 + 1 / 100) = 101 / 100 := by
  rw [toFixedNum_of_scaled_int 2 _ 101 (by norm_num)]; norm_num

theorem tick_102 : toFixedNum 2 (101 / 100 + 1 / 100) = 102 / 100 := by
  rw [toFixedNum_of_scaled_int 2 _ 102 (by norm_num)]; norm_num

theorem tick_103 : toFixedNum 2 (102 / 100 + 1 / 100) = 103 / 100 := by
  rw [toFixedNum_of_scaled_int 2 _ 103 (by norm_num)]; norm_num

theorem tick_104 : toFixedNum 2 (103 / 100 + 1 / 100) = 104 / 100 := by
  rw [toFixedNum_of_scaled_int 2 _ 104 (by norm_num)]; norm_num

theorem tick_105 : toFixedNum 2 (104 / 100 + 1 / 100) = 105 / 100 := by
  rw [toFixedNum_of_scaled_int 2 _ 105 (by norm_num)]; norm_num

theorem round_105 : toFixedNum 2 (105 / 100) = 105 / 100 :=
  toFixedNum_of_scaled_int 2 _ 105 (by norm_num)

theorem js_tick_value (a b : ℚ) (hb : toFixedNum 2 (a + 1 / 100) = b) :
    (JSNum.add (JSNum.fin a) (JSNum.fin (1 / 100))).toFixed 2 = JSNum.fin b := by
  show JSNum.fin (toFixedNum 2 (a + 1 / 100)) = JSNum.fin b
  rw [hb]

theorem js_ge_fin (a b : ℚ) : (JSNum.fin a).ge (JSNum.fin b) = decide (b ≤ a) := rfl

theorem simTick_below (B : Builtins) (id : String) (u a b r : ℚ) (st : Store)
    (hb : toFixedNum 2 (a + 1 / 100) = b) (hlt : b < r) :
    simTick B id (JSNum.fin (1 / 100)) u { x := JSNum.fin a, R := JSNum.fin r, store := st }
      = ({ x := JSNum.fin b, R := JSNum.fin r, store := st },
          Event.simTick id (JSNum.fin b) (JSNum.fin r)) := by
  unfold simTick
  dsimp only
  rw [js_tick_value a b hb, js_ge_fin, decide_eq_false (not_le.mpr hlt)]
  simp

theorem simTick_reach (B : Builtins) (id : String) (u a b r : ℚ) (st : Store)
    (hb : toFixedNum 2 (a + 1 / 100) = b) (hge : r ≤ b) :
    simTick B id (JSNum.fin (1 / 100)) u { x := JSNum.fin a, R := JSNum.fin r, store := st }
      = ({ x := JSNum.fin 1, R := sampleCrash B (writeAppendCrash (JSNum.fin r) id st) u,
           store := writeAppendCrash (JSNum.fin r) id st },
          Event.simCrash id (JSNum.fin r)) := by
  unfold simTick
  dsimp only
  rw [js_tick_value a b hb, js_ge_fin, decide_eq_true hge]
  simp

theorem pfTick_below (B : Builtins) (server client : String) (edge n : JSNum) (a b r : ℚ)
    (st : Store) (hb : toFixedNum 2 (a + 1 / 100) = b) (hlt : b < r) :
    pfTick B { server := server, client := client, edge := edge, step := JSNum.fin (1 / 100) }
        { x := JSNum.fin a, R := JSNum.fin r, nonce := n, store := st }
      = ({ x := JSNum.fin b, R := JSNum.fin r, nonce := n, store := st },
          Event.pfTick (JSNum.fin b) (JSNum.fin (toFixedNum 2 r)) n) := by
  unfold pfTick
  dsimp only
  rw [js_tick_value a b hb, js_ge_fin, decide_eq_false (not_le.mpr hlt)]
  simp [JSNum.toFixed]

theorem pfTick_reach (B : Builtins) (server client : String) (edge n : JSNum) (a b r : ℚ)
    (st : Store) (hb : toFixedNum 2 (a + 1 / 100) = b) (hge : r ≤ b) :
    pfTick B { server := server, client := client, edge := edge, step := JSNum.fin (1 / 100) }
        { x := JSNum.fin a, R := JSNum.fin r, nonce := n, store := st }
      = ({ x := JSNum.fin 1,
           R := crashR B server client (JSNum.add n (JSNum.fin 1)) edge,
           nonce := JSNum.add n (JSNum.fin 1),
           store := pfPersist (JSNum.fin (toFixedNum 2 r)) st },
          Event.pfCrash (JSNum.fin (toFixedNum 2 r)) n) := by
  unfold pfTick
  dsimp only
  rw [js_tick_value a b hb, js_ge_fin, decide_eq_true hge]
  simp [JSNum.toFixed]

/-- C6. With `step = 0.01` and threshold `R = 1.05`, five runs of the tick step from
`x = 1.00` write, in `/api/sim-stream` and in `/api/pf-stream` alike, four `tick` events with
`x = 1.01, 1.02, 1.03, 1.04` and then one `crash` event carrying `1.05`; the crash appends one
record with multiplier `1.05` to the dataset, a new threshold is drawn, and `x` is back at
`1.00` for the sixth run. -/
theorem five_ticks_then_crash :
    (∀ (B : Builtins) (id : String) (st : Store) (u1 u2 u3 u4 u5 : ℚ),
      simRun B id (JSNum.fin (1 / 100)) [u1, u2, u3, u4, u5]
          { x := JSNum.fin 1, R := JSNum.fin (105 / 100), store := st }
        = ({ x := JSNum.fin 1,
             R := sampleCrash B (writeAppendCrash (JSNum.fin (105 / 100)) id st) u5,
             store := writeAppendCrash (JSNum.fin (105 / 100)) id st },
           [Event.simTick id (JSNum.fin (101 / 100)) (JSNum.fin (105 / 100)),
            Event.simTick id (JSNum.fin (102 / 100)) (JSNum.fin (105 / 100)),
            Event.simTick id (JSNum.fin (103 / 100)) (JSNum.fin (105 / 100)),
            Event.simTick id (JSNum.fin (104 / 100)) (JSNum.fin (105 / 100)),
            Event.simCrash id (JSNum.fin (105 / 100))])) ∧
    (∀ (B : Builtins) (server client : String) (edge n : JSNum) (st : Store),
      pfRun B { server := server, client := client, edge := edge, step := JSNum.fin (1 / 100) }
          5 { x := JSNum.fin 1, R := JSNum.fin (105 / 100), nonce := n, store := st }
        = ({ x := JSNum.fin 1,
             R := crashR B server client (JSNum.add n (JSNum.fin 1)) edge,
             nonce := JSNum.add n (JSNum.fin 1),
             store := pfPersist (JSNum.fin (105 / 100)) st },
           [Event.pfTick (JSNum.fin (101 / 100)) (JSNum.fin (105 / 100)) n,
            Event.pfTick (JSNum.fin (102 / 100)) (JSNum.fin (105 / 100)) n,
            Event.pfTick (JSNum.fin (103 / 100)) (JSNum.fin (105 / 100)) n,
            Event.pfTick (JSNum.fin (104 / 100)) (JSNum.fin (105 / 100)) n,
            Event.pfCrash (JSNum.fin (105 / 100)) n])) ∧
    (∀ (items : List Json) (id : String),
      writeAppendCrash (JSNum.fin (105 / 100)) id (Store.json (Json.arr items))
        = Store.json (Json.arr (items ++
            [Json.obj [("session_id", Json.str id), ("multiplier", Json.num (105 / 100))]]))) := by
  refine ⟨?_, ?_, ?_⟩
  · intro B id st u1 u2 u3 u4 u5
    simp only [simRun]
    rw [simTick_below B id u1 1 (101 / 100) (105 / 100) st tick_101 (by norm_num)]
    dsimp only
    rw [simTick_below B id u2 (101 / 100) (102 / 100) (105 / 100) st tick_102 (by norm_num)]
    dsimp only
    rw [simTick_below B id u3 (102 / 100) (103 / 100) (105 / 100) st tick_103 (by norm_num)]
    dsimp only
    rw [simTick_below B id u4 (103 / 100) (104 / 100) (105 / 100) st tick_104 (by norm_num)]
    dsimp only
    rw [simTick_reach B id u5 (104 / 100) (105 / 100) (105 / 100) st tick_105 (by norm_num)]
  · intro B server client edge n st
    simp only [pfRun]
    rw [pfTick_below B server client edge n 1 (101 / 100) (105 / 100) st tick_101 (by norm_num)]
    dsimp only
    rw [pfTick_below B server client edge n (101 / 100) (102 / 100) (105 / 100) st tick_102
      (by norm_num)]
    dsimp only
    rw [pfTick_below B server client edge n (102 / 100) (103 / 100) (105 / 100) st tick_103
      (by norm_num)]
    dsimp only
    rw [pfTick_below B server client edge n (103 / 100) (104 / 100) (105 / 100) st tick_104
      (by norm_num)]
    dsimp only
    rw [pfTick_reach B server client edge n (104 / 100) (105 / 100) (105 / 100) st tick_105
      (by norm_num)]
    rw [round_105]
  · intro items id
    rfl

/-! ### The parameter check of `/api/pf-stream` -/

theorem pfTick_isTickOrCrash (B : Builtins) (cfg : PfConfig) (s : PfState) :
    (pfTick B cfg s).2.isTickOrCrash = true := by
  unfold pfTick
  dsimp only
  split_ifs <;> rfl

theorem pfRun_events (B : Builtins) (cfg : PfConfig) (k : ℕ) (s : PfState) :
    (pfRun B cfg k s).2.length = k ∧ ∀ e ∈ (pfRun B cfg k s).2, e.isTickOrCrash = true := by
  induction k generalizing s with
  | zero => simp [pfRun]
  | succ k ih =>
    obtain ⟨h1, h2⟩ := ih (pfTick B cfg s).1
    simp only [pfRun, List.length_cons, List.mem_cons]
    refine ⟨by rw [h1], ?_⟩
    intro e he
    rcases he with rfl | he
    · exact pfTick_isTickOrCrash B cfg s
    · exact h2 e he

theorem pfTick_crash_persists (B : Builtins) (cfg : PfConfig) (s : PfState) (v n : JSNum)
    (h : (pfTick B cfg s).2 = Event.pfCrash v n) :
    (pfTick B cfg s).1.store = pfPersist v s.store := by
  unfold pfTick at h ⊢
  dsimp only at h ⊢
  split_ifs at h ⊢ with hc
  simp only [Event.pfCrash.injEq] at h
  rw [h.1]

theorem sample_uniform (server client : String) (n : JSNum) :
    toUniform (hmacHex sampleBuiltins server client n) = JSNum.fin 0 := by
  have h : (hmacHex sampleBuiltins server client n).data.take 13 = List.replicate 13 '0' := rfl
  have hp : parseInt16 (List.replicate 13 '0') = JSNum.fin 0 := by
    simp [parseInt16, hexRun, hexDigitVal, hexValue, List.replicate]
  unfold toUniform
  dsimp only
  rw [h, hp, js_div_fin _ _ (by simp)]
  simp

theorem sample_crashR (server client : String) (n : JSNum) :
    crashR sampleBuiltins server client n (JSNum.fin (99 / 100)) = JSNum.fin 1 := by
  rw [crashR_of_uniform sampleBuiltins server client n (99 / 100) 0 (sample_uniform _ _ _)]
  have : (99 / 100 : ℚ) / (1 - clampUnit 0) ≤ 1 := by
    have hc : clampUnit 0 = eps := by
      unfold clampUnit eps; norm_num
    rw [hc]; unfold eps; norm_num
  rw [max_eq_left this]

/-- C7 (the failing case). A `/api/pf-stream` request without a server seed gets the error
event, and the handler goes on: for every choice of the library functions each later run of
the timer callback writes one `tick` or `crash` event, and a run that writes a `crash` event
appends its record to the dataset. With a digest of zeros the first run is already a crash,
and the record `{ session_id: "pf", multiplier: 1 }` is appended. -/
theorem pf_stream_runs_after_error :
    (∀ (B : Builtins) (st : Store),
      (pfInit B noServerQuery st).2.2
        = [Event.pfError "server, client, nonce required"]) ∧
    (∀ (B : Builtins) (st : Store) (k : ℕ),
      (pfRun B (pfInit B noServerQuery st).1 k
          (pfInit B noServerQuery st).2.1).2.length = k ∧
      ∀ e ∈ (pfRun B (pfInit B noServerQuery st).1 k
          (pfInit B noServerQuery st).2.1).2, e.isTickOrCrash = true) ∧
    (∀ (B : Builtins) (cfg : PfConfig) (s : PfState) (v n : JSNum),
      (pfTick B cfg s).2 = Event.pfCrash v n → (pfTick B cfg s).1.store = pfPersist v s.store) ∧
    (∀ items : List Json,
      pfRun sampleBuiltins
          (pfInit sampleBuiltins noServerQuery (Store.json (Json.arr items))).1 1
          (pfInit sampleBuiltins noServerQuery (Store.json (Json.arr items))).2.1
        = ({ x := JSNum.fin 1, R := JSNum.fin 1, nonce := JSNum.fin 1,
             store := Store.json (Json.arr (items ++
               [Json.obj [("session_id", Json.str "pf"), ("multiplier", Json.num 1)]])) },
           [Event.pfCrash (JSNum.fin 1) (JSNum.fin 0)])) := by
  refine ⟨?_, ?_, ?_, ?_⟩
  · intro B st
    simp [pfInit, queryString, noServerQuery]
  · intro B st k
    exact pfRun_events B _ k _
  · intro B cfg s v n h
    exact pfTick_crash_persists B cfg s v n h
  · intro items
    have hinit : pfInit sampleBuiltins noServerQuery (Store.json (Json.arr items))
        = ({ server := "", client := "abc", edge := JSNum.fin (99 / 100),
             step := JSNum.fin (1 / 100) },
           { x := JSNum.fin 1, R := JSNum.fin 1, nonce := JSNum.fin 0,
             store := Store.json (Json.arr items) },
           [Event.pfError "server, client, nonce required"]) := by
      simp [pfInit, queryString, queryNumber, sample_crashR, noServerQuery]
    rw [hinit]
    simp only [pfRun]
    rw [pfTick_reach sampleBuiltins "" "abc" (JSNum.fin (99 / 100)) (JSNum.fin 0) 1
      (101 / 100) 1 _ tick_101 (by norm_num), toFixedNum_one]
    simp [sample_crashR, pfPersist, record, stringifyNum, JSNum.add]

/-! ### The record invariant -/

theorem recordValid_record (sid : Json) (q : ℚ) (hq : 1 ≤ q) :
    recordValid (record sid (JSNum.fin q)) := by
  simp [recordValid, record, stringifyNum, List.lookup, hq]

/-- Appending a finite value `≥ 1` with `writeAppendCrash` keeps the record invariant. -/
theorem writeAppendCrash_preserves (items : List Json) (q : ℚ) (sid : String)
    (hold : ∀ r ∈ items, recordValid r) (hq : 1 ≤ q) :
    ∃ items', writeAppendCrash (JSNum.fin q) sid (Store.json (Json.arr items))
        = Store.json (Json.arr (items ++ items')) ∧
      ∀ r ∈ items ++ items', recordValid r := by
  refine ⟨[record (Json.str sid) (JSNum.fin q)], rfl, ?_⟩
  intro r hr
  rcases List.mem_append.mp hr with h | h
  · exact hold r h
  · rw [List.mem_singleton.mp h]
    exact recordValid_record _ q hq

/-- C10 (the failing case). When `parseFloat("Infinity")` is `Infinity`, a POST of
`{ "value": "Infinity" }` to `/api/add-crash` is accepted and the stored dataset becomes the
old array followed by a record whose multiplier is `null`, which breaks the record
invariant. -/
theorem add_crash_infinity_stores_null (B : Builtins)
    (hpf : B.parseFloat "Infinity" = JSNum.posInf) (items : List Json) :
    apiAddCrash B (some (Json.str "Infinity")) (Store.json (Json.arr items))
      = (Store.json (Json.arr (items ++
          [Json.obj [("session_id", Json.str "real"), ("multiplier", Json.null)]])),
         Response.added 1) ∧
    ¬ recordValid (Json.obj [("session_id", Json.str "real"), ("multiplier", Json.null)]) := by
  have ht : trim (dropTrailingX "Infinity") = "Infinity" := by decide
  constructor
  · unfold apiAddCrash
    dsimp only
    rw [ht, hpf]
    rfl
  · simp [recordValid, List.lookup]

theorem add_crash_infinity_stores_null_witness :
    sampleBuiltins.parseFloat "Infinity" = JSNum.posInf ∧
    (apiAddCrash sampleBuiltins (some (Json.str "Infinity")) (Store.json (Json.arr []))
      = (Store.json (Json.arr ([] ++
          [Json.obj [("session_id", Json.str "real"), ("multiplier", Json.null)]])),
         Response.added 1) ∧
    ¬ recordValid (Json.obj [("session_id", Json.str "real"), ("multiplier", Json.null)])) :=
  ⟨rfl, add_crash_infinity_stores_null sampleBuiltins rfl []⟩

/-! ### Instances -/

theorem sample_digest_hex (server client : String) (n : JSNum) :
    (∀ c ∈ (hmacHex sampleBuiltins server client n).data, (hexDigitVal c).isSome) ∧
    13 ≤ (hmacHex sampleBuiltins server client n).data.length := by
  have h : (hmacHex sampleBuiltins server client n).data = List.replicate 64 '0' := rfl
  rw [h]
  constructor
  · intro c hc
    rw [List.eq_of_mem_replicate hc]
    decide
  · simp

theorem crashR_ge_one_witness :
    (∀ c ∈ (hmacHex sampleBuiltins "server" "client" (JSNum.fin 7)).data,
      (hexDigitVal c).isSome) ∧
    13 ≤ (hmacHex sampleBuiltins "server" "client" (JSNum.fin 7)).data.length ∧
    (0 : ℚ) < 99 / 100 ∧ (99 / 100 : ℚ) < 1 ∧
    ∃ num : ℕ, ∃ r : ℚ,
      parseInt16 ((hmacHex sampleBuiltins "server" "client" (JSNum.fin 7)).data.take 13)
        = JSNum.fin num ∧
      num < 16 ^ 13 ∧
      toUniform (hmacHex sampleBuiltins "server" "client" (JSNum.fin 7))
        = JSNum.fin ((num : ℚ) / 16 ^ 13) ∧
      0 < 1 - clampUnit ((num : ℚ) / 16 ^ 13) ∧
      0 < (99 / 100 : ℚ) / (1 - clampUnit ((num : ℚ) / 16 ^ 13)) ∧
      r = max 1 ((99 / 100 : ℚ) / (1 - clampUnit ((num : ℚ) / 16 ^ 13))) ∧
      crashR sampleBuiltins "server" "client" (JSNum.fin 7) (JSNum.fin (99 / 100))
        = JSNum.fin r ∧
      1 ≤ r :=
  ⟨(sample_digest_hex _ _ _).1, (sample_digest_hex _ _ _).2, by norm_num, by norm_num,
    crashR_ge_one sampleBuiltins "server" "client" (JSNum.fin 7) (99 / 100)
      (sample_digest_hex _ _ _).1 (sample_digest_hex _ _ _).2 (by norm_num) (by norm_num)⟩

theorem crashR_deterministic_witness :
    hmacHex sampleBuiltins "s1" "c1" (JSNum.fin 0) = hmacHex sampleBuiltins "s2" "c2" (JSNum.fin 5) ∧
    crashR sampleBuiltins "s1" "c1" (JSNum.fin 0) (JSNum.fin (99 / 100))
      = crashR sampleBuiltins "s2" "c2" (JSNum.fin 5) (JSNum.fin (99 / 100)) :=
  ⟨rfl, crashR_deterministic.1 sampleBuiltins sampleBuiltins "s1" "c1" "s2" "c2" (JSNum.fin 0)
    (JSNum.fin 5) (JSNum.fin (99 / 100)) rfl⟩

end Plane
